import Mathlib

/-!
Verification development for the AbyssConect real-time server core
(`src/server.js`): in-memory presence registry, conversation store,
voice-room manager, stream registry and disconnect reconciler, embedded
as a pure step function over an explicit server state.
-/

namespace Abyss

/-- A JavaScript value as it appears in event payloads and user records.
`vUndef` models `undefined` (an absent property). -/
inductive Val where
  | vUndef : Val
  | vNull : Val
  | vStr : String → Val
  | vNum : Int → Val
  | vBool : Bool → Val
  | vArr : List Val → Val
  | vObj : List (String × Val) → Val

open Val

/-- A JavaScript object: an ordered list of properties.  Property lookup
returns the last binding for a key, so that `{a: 1, ...obj}` (defaults
first, spread after) is modelled by list append. -/
abbrev Obj := List (String × Val)

/-- Property lookup: the last binding wins, `undefined` when absent. -/
def objGet (o : Obj) (k : String) : Val :=
  o.foldl (fun acc p => if p.1 == k then p.2 else acc) vUndef

/-- Whether the object carries a binding for `k`. -/
def objHas (o : Obj) (k : String) : Bool :=
  o.any (fun p => p.1 == k)

/-- JavaScript falsiness: `undefined`, `null`, `""`, `0` and `false`. -/
def falsy : Val → Bool
  | vUndef => true
  | vNull => true
  | vStr s => s == ""
  | vNum n => n == 0
  | vBool b => !b
  | vArr _ => false
  | vObj _ => false

/-- JavaScript `a || b`. -/
def jsOr (a b : Val) : Val := if falsy a then b else a

/-- Destructuring default `{ x = d }`: applies only when `undefined`. -/
def defaultVal (v d : Val) : Val := match v with
  | vUndef => d
  | _ => v

/-- Optional chaining `o?.k` where `o` may be absent. -/
def optChain (o : Option Obj) (k : String) : Val :=
  match o with
  | none => vUndef
  | some ob => objGet ob k

/-- `Map.get`: first entry with the key (keys are unique in a JS Map). -/
def mapGet (m : List (String × α)) (k : String) : Option α :=
  (m.find? (fun p => p.1 == k)).map (fun p => p.2)

/-- `Map.set`: replace the entry in place, or append a new one. -/
def mapSet : List (String × α) → String → α → List (String × α)
  | [], k, v => [(k, v)]
  | (k', v') :: rest, k, v =>
      if k' == k then (k, v) :: rest else (k', v') :: mapSet rest k v

/-- `Map.delete`. -/
def mapDelete (m : List (String × α)) (k : String) : List (String × α) :=
  m.filter (fun p => p.1 != k)

/-- `Set.add`: append if absent (JS sets are insertion ordered). -/
def setAdd (s : List String) (x : String) : List String :=
  if s.contains x then s else s ++ [x]

/-- `Set.delete`. -/
def setDelete (s : List String) (x : String) : List String :=
  s.filter (fun y => y != x)

/-- A voice room: `{ name, users: Set, limit, createdBy }`. -/
structure Room where
  name : String
  users : List String
  limit : Int
  createdBy : Option String

/-- A screen-share stream record. -/
structure StreamData where
  id : String
  userId : String
  userName : Val
  userAvatar : Val
  quality : Val
  fps : Val
  viewers : List String
  startedAt : String

/-- A direct message as stored in a conversation. -/
structure Msg where
  id : String
  fromId : String
  fromName : Val
  fromAvatar : Val
  toId : String
  text : Val
  type : Val
  audioData : Val
  timestamp : String

/-- Where an emitted event is addressed.
`all` is `io.emit`, `caller` is `socket.emit`, `toRoom` is
`io.to(room).emit` (a socket id acts as its own room), and
`toRoomExceptCaller` is `socket.to(room).emit`. -/
inductive Target where
  | all : Target
  | caller : String → Target
  | toRoom : String → Target
  | toRoomExceptCaller : String → String → Target

/-- One outbound emission: addressing, event name, payload. -/
structure Event where
  target : Target
  name : String
  payload : Val

/-- The whole in-memory server state.  `connected` and `sioRooms` model
the transport layer (which sockets exist and the socket.io room sets);
the four maps are the `users`, `voiceRooms`, `conversations` and
`streams` maps of the source. -/
structure ServerState where
  connected : List String
  users : List (String × Obj)
  voiceRooms : List (String × Room)
  conversations : List (String × List Msg)
  streams : List (String × StreamData)
  sioRooms : List (String × List String)

/-- Serialization of a stored message into an emitted payload. -/
def msgToVal (m : Msg) : Val :=
  vObj [("id", vStr m.id), ("from", vStr m.fromId), ("fromName", m.fromName),
        ("fromAvatar", m.fromAvatar), ("to", vStr m.toId), ("text", m.text),
        ("type", m.type), ("audioData", m.audioData),
        ("timestamp", vStr m.timestamp)]

/-- The sockets an event target resolves to, in a given state. -/
def recipients (s : ServerState) : Target → List String
  | Target.all => s.connected
  | Target.caller sid => if s.connected.contains sid then [sid] else []
  | Target.toRoom r => (mapGet s.sioRooms r).getD []
  | Target.toRoomExceptCaller r sid =>
      ((mapGet s.sioRooms r).getD []).filter (fun y => y != sid)

/-- Join a socket.io room. -/
def sioJoin (sio : List (String × List String)) (room sid : String) :
    List (String × List String) :=
  mapSet sio room (setAdd ((mapGet sio room).getD []) sid)

/-- Leave a socket.io room. -/
def sioLeave (sio : List (String × List String)) (room sid : String) :
    List (String × List String) :=
  mapSet sio room (setDelete ((mapGet sio room).getD []) sid)

/-- The record stored by `user:login`: the defaults come first and the
whole incoming payload is spread after them (`...userData`). -/
def loginRecord (sid : String) (userData : Obj) : Obj :=
  [("id", vStr sid),
   ("name", jsOr (objGet userData "name") (vStr "Anônimo")),
   ("avatar", jsOr (objGet userData "avatar") vNull),
   ("status", vStr "online")] ++ userData

/-- Handler for `user:login`. -/
def userLogin (s : ServerState) (sid : String) (userData : Obj) :
    ServerState × List Event :=
  let users' := mapSet s.users sid (loginRecord sid userData)
  ({ s with users := users' },
   [⟨Target.all, "user:online",
     vObj [("id", vStr sid), ("name", objGet userData "name"),
           ("status", vStr "online")]⟩,
    ⟨Target.caller sid, "users:list", vArr (users'.map (fun p => vObj p.2))⟩])

/-- Lexicographic comparison of character sequences, as the default
JavaScript string comparator orders strings. -/
def charListLt : List Char → List Char → Bool
  | _, [] => false
  | [], _ :: _ => true
  | a :: as, b :: bs => decide (a < b) || (a == b && charListLt as bs)

/-- String comparison used by `Array.prototype.sort`'s default comparator. -/
def strLt (a b : String) : Bool := charListLt a.data b.data

/-- `[socket.id, to].sort()` with the default comparator. -/
def jsSortPair (a b : String) : List String :=
  if strLt b a then [b, a] else [a, b]

/-- The canonical conversation key: sort the two ids, join with `-`. -/
def convKey (a b : String) : String :=
  String.intercalate "-" (jsSortPair a b)

/-- The message object built by `dm:send`. -/
def dmMessage (s : ServerState) (sid toId : String) (text ty audioData : Val)
    (msgId ts : String) : Msg :=
  let sender := mapGet s.users sid
  { id := msgId, fromId := sid,
    fromName := jsOr (optChain sender "name") (vStr "Anônimo"),
    fromAvatar := optChain sender "avatar",
    toId := toId, text := text, type := defaultVal ty (vStr "text"),
    audioData := audioData, timestamp := ts }

/-- Handler for `dm:send`: store in the conversation, deliver to the
recipient, echo to the sender. -/
def dmSend (s : ServerState) (sid toId : String) (text ty audioData : Val)
    (msgId ts : String) : ServerState × List Event :=
  let message := dmMessage s sid toId text ty audioData msgId ts
  let convId := convKey sid toId
  let convs' := mapSet s.conversations convId
    (((mapGet s.conversations convId).getD []) ++ [message])
  ({ s with conversations := convs' },
   [⟨Target.toRoom toId, "dm:receive", msgToVal message⟩,
    ⟨Target.caller sid, "dm:sent", msgToVal message⟩])

/-- The stored sequence `dm:history` reads for a pair. -/
def dmHistoryMsgs (s : ServerState) (a b : String) : List Msg :=
  (mapGet s.conversations (convKey a b)).getD []

/-- Handler for `dm:history`. -/
def dmHistory (s : ServerState) (sid otherId : String) :
    ServerState × List Event :=
  (s, [⟨Target.caller sid, "dm:history",
        vArr ((dmHistoryMsgs s sid otherId).map msgToVal)⟩])

/-- Payload of a `voice:user-left` notification. -/
def userLeftPayload (roomId sid : String) (userName : Val) : Val :=
  vObj [("roomId", vStr roomId), ("userId", vStr sid), ("userName", userName)]

/-- One iteration of the vacate loop: delete the socket from a room
when the room holds it. -/
def vacateRoom (sid : String) (r : Room) : Room :=
  if r.users.contains sid then { r with users := setDelete r.users sid }
  else r

/-- The room map after the vacate loop of `voice:join` (and of the
disconnect reconciler): delete the socket from every room holding it. -/
def vacateRooms (sid : String) (rooms : List (String × Room)) :
    List (String × Room) :=
  rooms.map (fun p => (p.1, vacateRoom sid p.2))

/-- The events the vacate loop of `voice:join` emits: one
`voice:user-left` per room that actually held the socket. -/
def vacateEvents (sid : String) (userName : Val)
    (rooms : List (String × Room)) : List Event :=
  rooms.filterMap (fun p =>
    if p.2.users.contains sid then
      some ⟨Target.toRoom ("voice:" ++ p.1), "voice:user-left",
            userLeftPayload p.1 sid userName⟩
    else none)

/-- The `socket.leave` calls of the vacate loop. -/
def vacateSio (sid : String) (rooms : List (String × Room))
    (sio : List (String × List String)) : List (String × List String) :=
  rooms.foldl (fun acc p =>
    if p.2.users.contains sid then sioLeave acc ("voice:" ++ p.1) sid
    else acc) sio

/-- Handler for `voice:join`. -/
def voiceJoin (s : ServerState) (sid roomId : String) :
    ServerState × List Event :=
  match mapGet s.voiceRooms roomId with
  | none =>
      (s, [⟨Target.caller sid, "voice:error",
            vObj [("message", vStr "Sala não encontrada")]⟩])
  | some room =>
    if room.limit > 0 ∧ (room.users.length : Int) ≥ room.limit then
      (s, [⟨Target.caller sid, "voice:error",
            vObj [("message", vStr "Sala cheia")]⟩])
    else
      let user := mapGet s.users sid
      let rooms₁ := vacateRooms sid s.voiceRooms
      let sio₁ := vacateSio sid s.voiceRooms s.sioRooms
      let room₁ := vacateRoom sid room
      let newRoom := { room₁ with users := setAdd room₁.users sid }
      let rooms₂ := mapSet rooms₁ roomId newRoom
      let sio₂ := sioJoin sio₁ ("voice:" ++ roomId) sid
      let participants := newRoom.users.map (fun i =>
        vObj [("id", vStr i), ("name", optChain (mapGet s.users i) "name"),
              ("avatar", optChain (mapGet s.users i) "avatar")])
      ({ s with voiceRooms := rooms₂, sioRooms := sio₂ },
       vacateEvents sid (optChain user "name") s.voiceRooms ++
       [⟨Target.toRoomExceptCaller ("voice:" ++ roomId) sid,
         "voice:user-joined",
         vObj [("roomId", vStr roomId), ("userId", vStr sid),
               ("userName", optChain user "name"),
               ("userAvatar", optChain user "avatar")]⟩,
        ⟨Target.caller sid, "voice:joined",
         vObj [("roomId", vStr roomId), ("participants", vArr participants)]⟩,
        ⟨Target.all, "voice:room-updated",
         vObj [("roomId", vStr roomId),
               ("userCount", vNum newRoom.users.length)]⟩])

/-- Handler for `voice:leave`. -/
def voiceLeave (s : ServerState) (sid roomId : String) :
    ServerState × List Event :=
  match mapGet s.voiceRooms roomId with
  | none => (s, [])
  | some room =>
    if room.users.contains sid then
      let newRoom := { room with users := setDelete room.users sid }
      ({ s with voiceRooms := mapSet s.voiceRooms roomId newRoom,
                sioRooms := sioLeave s.sioRooms ("voice:" ++ roomId) sid },
       [⟨Target.toRoom ("voice:" ++ roomId), "voice:user-left",
         userLeftPayload roomId sid (optChain (mapGet s.users sid) "name")⟩,
        ⟨Target.all, "voice:room-updated",
         vObj [("roomId", vStr roomId),
               ("userCount", vNum newRoom.users.length)]⟩])
    else (s, [])

/-- Handler for `voice:create-room`.  `freshId` stands for the generated
`uuidv4().substring(0, 8)`; the map `set` overwrites silently. -/
def voiceCreateRoom (s : ServerState) (sid name : String) (limit : Int)
    (freshId : String) : ServerState × List Event :=
  let newRoom : Room :=
    { name := name, users := [], limit := limit, createdBy := some sid }
  ({ s with voiceRooms := mapSet s.voiceRooms freshId newRoom },
   [⟨Target.all, "voice:room-created",
     vObj [("id", vStr freshId), ("name", vStr name), ("limit", vNum limit),
           ("userCount", vNum 0),
           ("createdBy", optChain (mapGet s.users sid) "name")]⟩])

/-- Handler for `stream:start`. -/
def streamStart (s : ServerState) (sid : String) (quality fps : Val)
    (freshId ts : String) : ServerState × List Event :=
  let user := mapGet s.users sid
  let stream : StreamData :=
    { id := freshId, userId := sid, userName := optChain user "name",
      userAvatar := optChain user "avatar", quality := quality, fps := fps,
      viewers := [], startedAt := ts }
  ({ s with streams := mapSet s.streams freshId stream,
            sioRooms := sioJoin s.sioRooms ("stream:" ++ freshId) sid },
   [⟨Target.all, "stream:started",
     vObj [("streamId", vStr freshId), ("userId", vStr sid),
           ("userName", optChain user "name"),
           ("userAvatar", optChain user "avatar")]⟩,
    ⟨Target.caller sid, "stream:created",
     vObj [("streamId", vStr freshId)]⟩])

/-- Handler for `stream:stop`: acts only when the requester is the
broadcaster, otherwise falls through silently. -/
def streamStop (s : ServerState) (sid streamId : String) :
    ServerState × List Event :=
  match mapGet s.streams streamId with
  | none => (s, [])
  | some stream =>
    if stream.userId == sid then
      ({ s with streams := mapDelete s.streams streamId },
       [⟨Target.toRoom ("stream:" ++ streamId), "stream:ended",
         vObj [("streamId", vStr streamId)]⟩])
    else (s, [])

/-- Handler for `stream:watch`. -/
def streamWatch (s : ServerState) (sid streamId : String) :
    ServerState × List Event :=
  match mapGet s.streams streamId with
  | none => (s, [])
  | some stream =>
    let newStream := { stream with viewers := setAdd stream.viewers sid }
    ({ s with streams := mapSet s.streams streamId newStream,
              sioRooms := sioJoin s.sioRooms ("stream:" ++ streamId) sid },
     [⟨Target.toRoom ("stream:" ++ streamId), "stream:viewer-joined",
       vObj [("streamId", vStr streamId),
             ("viewerCount", vNum newStream.viewers.length)]⟩,
      ⟨Target.toRoom stream.userId, "stream:request-offer",
       vObj [("viewerId", vStr sid)]⟩])

/-- The voice-room events of the disconnect reconciler: per vacated room
a `voice:user-left` followed by a `voice:room-updated` with the count
after removal. -/
def disconnectRoomEvents (sid : String) (userName : Val)
    (rooms : List (String × Room)) : List Event :=
  rooms.foldr (fun p acc =>
    if p.2.users.contains sid then
      ⟨Target.toRoom ("voice:" ++ p.1), "voice:user-left",
        userLeftPayload p.1 sid userName⟩ ::
      ⟨Target.all, "voice:room-updated",
        vObj [("roomId", vStr p.1),
              ("userCount", vNum (setDelete p.2.users sid).length)]⟩ :: acc
    else acc) []

/-- The stream map after the disconnect reconciler: streams broadcast by
the socket are deleted, all other streams lose it as a viewer. -/
def disconnectStreams (sid : String) (streams : List (String × StreamData)) :
    List (String × StreamData) :=
  streams.filterMap (fun p =>
    if p.2.userId == sid then none
    else some (p.1, { p.2 with viewers := setDelete p.2.viewers sid }))

/-- The `stream:ended` events of the disconnect reconciler. -/
def disconnectStreamEvents (sid : String)
    (streams : List (String × StreamData)) : List Event :=
  streams.filterMap (fun p =>
    if p.2.userId == sid then
      some ⟨Target.toRoom ("stream:" ++ p.1), "stream:ended",
            vObj [("streamId", vStr p.1)]⟩
    else none)

/-- The disconnect reconciler.  The transport removes the socket from
the connected set and from every socket.io room before the handler body
runs; the handler then unwinds voice rooms, streams and the user record
and broadcasts `user:offline` unconditionally. -/
def disconnect (s : ServerState) (sid : String) : ServerState × List Event :=
  let user := mapGet s.users sid
  ({ connected := setDelete s.connected sid,
     users := mapDelete s.users sid,
     voiceRooms := vacateRooms sid s.voiceRooms,
     conversations := s.conversations,
     streams := disconnectStreams sid s.streams,
     sioRooms := s.sioRooms.map (fun p => (p.1, setDelete p.2 sid)) },
   disconnectRoomEvents sid (optChain user "name") s.voiceRooms ++
   disconnectStreamEvents sid s.streams ++
   [⟨Target.all, "user:offline", vObj [("id", vStr sid)]⟩])

/-- Transport-level connection accept: the socket becomes connected and
joins its personal socket.io room. -/
def connect (s : ServerState) (sid : String) : ServerState × List Event :=
  ({ s with connected := setAdd s.connected sid,
            sioRooms := sioJoin s.sioRooms sid sid }, [])

/-- One inbound operation, tagged with the originating socket id.
Fresh ids and timestamps the code draws from `uuidv4()` and `Date` are
oracle inputs carried by the operation. -/
inductive Op where
  | connect (sid : String)
  | login (sid : String) (userData : Obj)
  | dmSend (sid toId : String) (text ty audioData : Val) (msgId ts : String)
  | dmHistory (sid otherId : String)
  | voiceJoin (sid roomId : String)
  | voiceLeave (sid roomId : String)
  | voiceCreateRoom (sid name : String) (limit : Int) (freshId : String)
  | streamStart (sid : String) (quality fps : Val) (freshId ts : String)
  | streamStop (sid streamId : String)
  | streamWatch (sid streamId : String)
  | disconnect (sid : String)

/-- The event dispatcher: run one handler to completion. -/
def step (s : ServerState) : Op → ServerState × List Event
  | .connect sid => connect s sid
  | .login sid userData => userLogin s sid userData
  | .dmSend sid toId text ty audioData msgId ts =>
      dmSend s sid toId text ty audioData msgId ts
  | .dmHistory sid otherId => dmHistory s sid otherId
  | .voiceJoin sid roomId => voiceJoin s sid roomId
  | .voiceLeave sid roomId => voiceLeave s sid roomId
  | .voiceCreateRoom sid name limit freshId =>
      voiceCreateRoom s sid name limit freshId
  | .streamStart sid quality fps freshId ts =>
      streamStart s sid quality fps freshId ts
  | .streamStop sid streamId => streamStop s sid streamId
  | .streamWatch sid streamId => streamWatch s sid streamId
  | .disconnect sid => disconnect s sid

/-- The boot state: the three pre-provisioned rooms, nothing else. -/
def initState : ServerState :=
  { connected := [], users := [],
    voiceRooms :=
      [("general", { name := "Sala Geral", users := [], limit := 0,
                     createdBy := none }),
       ("gaming", { name := "Gaming", users := [], limit := 0,
                    createdBy := none }),
       ("music", { name := "Música", users := [], limit := 0,
                   createdBy := none })],
    conversations := [], streams := [], sioRooms := [] }

/-- Run a sequence of operations, event by event. -/
def runOps (s : ServerState) (ops : List Op) : ServerState :=
  ops.foldl (fun acc op => (step acc op).1) s

/-! ### Order and key lemmas -/

theorem charListLt_asymm :
    ∀ as bs, charListLt as bs = true → charListLt bs as = false := by
  intro as
  induction as with
  | nil =>
    intro bs h
    cases bs with
    | nil => simp [charListLt] at h
    | cons b bs => rfl
  | cons a as ih =>
    intro bs h
    cases bs with
    | nil => simp [charListLt] at h
    | cons b bs =>
      simp only [charListLt, Bool.or_eq_true, decide_eq_true_eq,
        Bool.and_eq_true, beq_iff_eq] at h
      rcases h with h | ⟨hab, hrec⟩
      · have h1 : ¬ b < a := lt_asymm h
        have h2 : (b == a) = false := by
          simp [beq_eq_false_iff_ne]
          exact (ne_of_lt h).symm
        simp [charListLt, h1, h2]
      · subst hab
        have h1 : ¬ a < a := lt_irrefl a
        simp [charListLt, h1, ih bs hrec]

theorem charListLt_eq_of_both_false :
    ∀ as bs, charListLt as bs = false → charListLt bs as = false → as = bs := by
  intro as
  induction as with
  | nil =>
    intro bs h1 _
    cases bs with
    | nil => rfl
    | cons b bs => simp [charListLt] at h1
  | cons a as ih =>
    intro bs h1 h2
    cases bs with
    | nil => simp [charListLt] at h2
    | cons b bs =>
      simp only [charListLt, Bool.or_eq_false_iff, decide_eq_false_iff_not,
        Bool.and_eq_false_iff] at h1 h2
      have hab : a = b := le_antisymm (not_lt.mp h2.1) (not_lt.mp h1.1)
      subst hab
      rcases h1.2 with h | hr1
      · simp at h
      rcases h2.2 with h | hr2
      · simp at h
      exact congrArg (a :: ·) (ih bs hr1 hr2)

theorem strLt_string_eq (a b : String) (h1 : strLt a b = false)
    (h2 : strLt b a = false) : a = b := by
  have h := charListLt_eq_of_both_false a.data b.data h1 h2
  cases a with
  | mk da =>
    cases b with
    | mk db => exact congrArg String.mk (by simpa using h)

theorem jsSortPair_comm (a b : String) : jsSortPair a b = jsSortPair b a := by
  unfold jsSortPair
  cases h1 : strLt b a with
  | true =>
    have h2 : strLt a b = false := charListLt_asymm _ _ h1
    simp [h2]
  | false =>
    cases h2 : strLt a b with
    | true => simp
    | false =>
      have hab : a = b := strLt_string_eq a b h2 h1
      subst hab
      simp

theorem convKey_comm (a b : String) : convKey a b = convKey b a := by
  unfold convKey
  rw [jsSortPair_comm]

/-! ### Map and set lemmas -/

theorem mapGet_mapSet_self (m : List (String × α)) (k : String) (v : α) :
    mapGet (mapSet m k v) k = some v := by
  induction m with
  | nil => simp [mapSet, mapGet, List.find?]
  | cons p rest ih =>
    by_cases h : p.1 == k
    · obtain ⟨k', v'⟩ := p
      simp only at h
      simp [mapSet, h, mapGet, List.find?]
    · obtain ⟨k', v'⟩ := p
      simp only at h
      simpa [mapSet, h, mapGet, List.find?] using ih

theorem mapSet_of_mapGet_none (m : List (String × α)) (k : String) (v : α)
    (h : mapGet m k = none) : mapSet m k v = m ++ [(k, v)] := by
  induction m with
  | nil => rfl
  | cons p rest ih =>
    obtain ⟨k', v'⟩ := p
    by_cases hk : k' == k
    · simp [mapGet, List.find?, hk] at h
    · simp only [mapGet, List.find?_cons, hk] at h
      simp [mapSet, hk, ih h]

theorem mapSet_map_sum (g : String × α → Nat) (m : List (String × α))
    (k : String) (v w : α) (h : mapGet m k = some w) :
    ((mapSet m k v).map g).sum + g (k, w) = (m.map g).sum + g (k, v) := by
  induction m with
  | nil => simp [mapGet, List.find?] at h
  | cons p rest ih =>
    obtain ⟨k', v'⟩ := p
    by_cases hk : k' == k
    · have hkk : k' = k := by simpa using hk
      subst hkk
      simp only [mapGet, List.find?_cons, beq_self_eq_true, Option.map_some] at h
      cases h
      simp [mapSet, List.map_cons, List.sum_cons]
      omega
    · simp only [mapGet, List.find?_cons, hk] at h
      have := ih h
      simp only [mapSet, hk, if_neg, List.map_cons, List.sum_cons]
      simp only [Bool.false_eq_true, if_false, List.map_cons, List.sum_cons]
      omega

/-- Number of occurrences of a socket id in a membership list. -/
def occ (c : String) : List String → Nat
  | [] => 0
  | x :: xs => (if x == c then 1 else 0) + occ c xs

theorem occ_append (c : String) (l l' : List String) :
    occ c (l ++ l') = occ c l + occ c l' := by
  induction l with
  | nil => simp [occ]
  | cons a rest ih => simp [occ, ih]; omega

theorem not_mem_setDelete (l : List String) (x : String) :
    x ∉ setDelete l x := by
  intro hm
  simp [setDelete, List.mem_filter] at hm

theorem setDelete_of_not_mem (l : List String) (x : String) (h : x ∉ l) :
    setDelete l x = l := by
  apply List.filter_eq_self.mpr
  intro a ha
  simp
  exact fun hh => h (hh ▸ ha)

theorem setDelete_idem (l : List String) (x : String) :
    setDelete (setDelete l x) x = setDelete l x :=
  setDelete_of_not_mem _ _ (not_mem_setDelete l x)

theorem occ_setDelete_self (l : List String) (x : String) :
    occ x (setDelete l x) = 0 := by
  induction l with
  | nil => rfl
  | cons a rest ih =>
    by_cases h : a = x
    · subst h
      have : (a != a) = false := by simp
      simpa [setDelete, this] using ih
    · have hne : (a != x) = true := by simp [bne, h]
      have hax : (a == x) = false := by simpa [beq_eq_false_iff_ne] using h
      simp only [setDelete, List.filter_cons, hne, if_true]
      simpa [occ, hax] using ih

theorem occ_setDelete_ne (l : List String) (x c : String) (h : c ≠ x) :
    occ c (setDelete l x) = occ c l := by
  induction l with
  | nil => rfl
  | cons a rest ih =>
    by_cases hax : a = x
    · subst hax
      have hac : (a == c) = false := by
        simpa [beq_eq_false_iff_ne] using fun hh : a = c => h hh.symm
      simp only [setDelete, List.filter_cons, bne_self_eq_false,
        Bool.false_eq_true, if_false, occ, hac] at ih ⊢
      simpa [setDelete] using ih
    · have hne : (a != x) = true := by simp [bne, hax]
      simp only [setDelete, List.filter_cons, hne, if_true, occ] at ih ⊢
      omega

theorem occ_zero_contains_false (l : List String) (x : String)
    (h : occ x l = 0) : l.contains x = false := by
  induction l with
  | nil => rfl
  | cons a rest ih =>
    simp only [occ] at h
    by_cases hax : (a == x) = true
    · simp [hax] at h
    · have hax' : (a == x) = false := by simpa using hax
      have hxa : (x == a) = false := by
        have := (beq_eq_false_iff_ne (a := a) (b := x)).mp hax'
        simpa [beq_eq_false_iff_ne] using fun hh : x = a => this hh.symm
      simp only [hax', if_false] at h
      simp only [List.contains_cons, hxa, Bool.false_or]
      exact ih (by omega)

theorem occ_setAdd_self (l : List String) (x : String)
    (h : x ∉ l) : occ x (setAdd l x) = occ x l + 1 := by
  simp [setAdd, h, occ_append, occ]

theorem occ_setAdd_ne (l : List String) (x c : String) (h : c ≠ x) :
    occ c (setAdd l x) = occ c l := by
  by_cases hc : x ∈ l
  · simp [setAdd, hc]
  · have hxc : (x == c) = false := by
      simpa [beq_eq_false_iff_ne] using fun hh : x = c => h hh.symm
    simp [setAdd, hc, occ_append, occ, hxc]

theorem mapGet_mapDelete_self (m : List (String × α)) (k : String) :
    mapGet (mapDelete m k) k = none := by
  induction m with
  | nil => rfl
  | cons p rest ih =>
    obtain ⟨k', v'⟩ := p
    by_cases h : k' = k
    · subst h
      have : (k' != k') = false := by simp
      simpa [mapDelete, this] using ih
    · have hne : (k' != k) = true := by simp [bne, h]
      have hk : (k' == k) = false := by simpa [beq_eq_false_iff_ne] using h
      simp only [mapDelete, List.filter_cons, hne, if_true]
      simp only [mapGet, List.find?_cons, hk, mapDelete] at ih ⊢
      exact ih

theorem mapDelete_of_mapGet_none (m : List (String × α)) (k : String)
    (h : mapGet m k = none) : mapDelete m k = m := by
  induction m with
  | nil => rfl
  | cons p rest ih =>
    obtain ⟨k', v'⟩ := p
    by_cases hk : (k' == k) = true
    · simp [mapGet, List.find?_cons, hk] at h
    · have hk' : (k' == k) = false := by simpa using hk
      have hne : (k' != k) = true := by simp [bne, hk']
      simp only [mapGet, List.find?_cons, hk'] at h
      simp [mapDelete, hne] at ih ⊢
      exact ih h

theorem mapDelete_idem (m : List (String × α)) (k : String) :
    mapDelete (mapDelete m k) k = mapDelete m k :=
  mapDelete_of_mapGet_none _ _ (mapGet_mapDelete_self m k)

/-! ### Exclusive voice-room membership (the C1 invariant) -/

/-- Total number of occurrences of a socket id across all voice-room
membership sets of a state. -/
def roomOcc (s : ServerState) (c : String) : Nat :=
  (s.voiceRooms.map (fun p => occ c p.2.users)).sum

theorem occ_eq_zero_of_not_mem (l : List String) (x : String) (h : x ∉ l) :
    occ x l = 0 := by
  induction l with
  | nil => rfl
  | cons a rest ih =>
    have hax : (a == x) = false := by
      simpa [beq_eq_false_iff_ne] using fun hh : a = x => h (hh ▸ List.mem_cons_self a rest)
    simp only [occ, hax, Bool.false_eq_true, if_false, Nat.zero_add]
    exact ih (fun hm => h (List.mem_cons_of_mem a hm))

theorem occ_vacateRoom_self (sid : String) (r : Room) :
    occ sid (vacateRoom sid r).users = 0 := by
  by_cases h : sid ∈ r.users
  · simp [vacateRoom, h, occ_setDelete_self]
  · simp [vacateRoom, h]
    exact occ_eq_zero_of_not_mem _ _ h

theorem occ_vacateRoom_ne (sid c : String) (r : Room) (h : c ≠ sid) :
    occ c (vacateRoom sid r).users = occ c r.users := by
  by_cases hm : sid ∈ r.users
  · simp [vacateRoom, hm, occ_setDelete_ne _ _ _ h]
  · simp [vacateRoom, hm]

theorem vacate_sum_self (sid : String) (rooms : List (String × Room)) :
    ((vacateRooms sid rooms).map (fun p => occ sid p.2.users)).sum = 0 := by
  induction rooms with
  | nil => rfl
  | cons p rest ih =>
    simp [vacateRooms, occ_vacateRoom_self] at ih ⊢
    exact ih

theorem vacate_sum_ne (sid c : String) (rooms : List (String × Room))
    (h : c ≠ sid) :
    ((vacateRooms sid rooms).map (fun p => occ c p.2.users)).sum =
      (rooms.map (fun p => occ c p.2.users)).sum := by
  induction rooms with
  | nil => rfl
  | cons p rest ih =>
    simp [vacateRooms, occ_vacateRoom_ne _ _ _ h] at ih ⊢
    exact ih

theorem mapGet_vacateRooms (sid : String) (rooms : List (String × Room))
    (k : String) :
    mapGet (vacateRooms sid rooms) k =
      (mapGet rooms k).map (vacateRoom sid) := by
  induction rooms with
  | nil => rfl
  | cons p rest ih =>
    obtain ⟨k', r⟩ := p
    by_cases hk : (k' == k) = true
    · simp [vacateRooms, mapGet, List.find?_cons, hk]
    · have hk' : (k' == k) = false := by simpa using hk
      simpa [vacateRooms, mapGet, List.find?_cons, hk'] using ih

theorem occ_setDelete_le (l : List String) (x c : String) :
    occ c (setDelete l x) ≤ occ c l := by
  by_cases h : c = x
  · subst h
    simp [occ_setDelete_self]
  · simp [occ_setDelete_ne _ _ _ h]

theorem roomOcc_congr (s s' : ServerState) (c : String)
    (h : s'.voiceRooms = s.voiceRooms) : roomOcc s' c = roomOcc s c := by
  unfold roomOcc
  rw [h]

theorem streamStop_voiceRooms (s : ServerState) (sid i : String) :
    (streamStop s sid i).1.voiceRooms = s.voiceRooms := by
  unfold streamStop
  cases mapGet s.streams i with
  | none => rfl
  | some st => by_cases h : (st.userId == sid) = true <;> simp [h]

theorem streamWatch_voiceRooms (s : ServerState) (sid i : String) :
    (streamWatch s sid i).1.voiceRooms = s.voiceRooms := by
  unfold streamWatch
  cases mapGet s.streams i with
  | none => rfl
  | some st => rfl

theorem mapSet_occ_sum (c : String) (m : List (String × Room)) (k : String)
    (v w : Room) (h : mapGet m k = some w) :
    ((mapSet m k v).map (fun p => occ c p.2.users)).sum + occ c w.users =
      (m.map (fun p => occ c p.2.users)).sum + occ c v.users := by
  simpa using mapSet_map_sum (fun p => occ c p.2.users) m k v w h

theorem step_roomOcc_le (s : ServerState) (op : Op) (c : String)
    (h : roomOcc s c ≤ 1) : roomOcc (step s op).1 c ≤ 1 := by
  cases op with
  | connect sid => exact h
  | login sid ud => exact h
  | dmSend sid toId text ty audioData msgId ts => exact h
  | dmHistory sid otherId => exact h
  | streamStart sid quality fps freshId ts => exact h
  | streamStop sid streamId =>
    exact (roomOcc_congr s _ c (streamStop_voiceRooms s sid streamId)).trans_le h
  | streamWatch sid streamId =>
    exact (roomOcc_congr s _ c (streamWatch_voiceRooms s sid streamId)).trans_le h
  | voiceJoin sid roomId =>
    show roomOcc (voiceJoin s sid roomId).1 c ≤ 1
    cases hm : mapGet s.voiceRooms roomId with
    | none => simpa [voiceJoin, hm, roomOcc] using h
    | some room =>
      by_cases hfull : room.limit > 0 ∧ (room.users.length : Int) ≥ room.limit
      · simpa [voiceJoin, hm, hfull, roomOcc] using h
      · have hget : mapGet (vacateRooms sid s.voiceRooms) roomId =
            some (vacateRoom sid room) := by
          rw [mapGet_vacateRooms, hm]
          rfl
        have hrooms : (voiceJoin s sid roomId).1.voiceRooms =
            mapSet (vacateRooms sid s.voiceRooms) roomId
              (Room.mk (vacateRoom sid room).name
                (setAdd (vacateRoom sid room).users sid)
                (vacateRoom sid room).limit
                (vacateRoom sid room).createdBy) := by
          simp [voiceJoin, hm, hfull]
        unfold roomOcc
        rw [hrooms]
        have hsum := mapSet_occ_sum c (vacateRooms sid s.voiceRooms) roomId
          (Room.mk (vacateRoom sid room).name
            (setAdd (vacateRoom sid room).users sid)
            (vacateRoom sid room).limit
            (vacateRoom sid room).createdBy)
          (vacateRoom sid room) hget
        have husers : (Room.mk (vacateRoom sid room).name
            (setAdd (vacateRoom sid room).users sid)
            (vacateRoom sid room).limit
            (vacateRoom sid room).createdBy).users =
            setAdd (vacateRoom sid room).users sid := rfl
        rw [husers] at hsum
        by_cases hc : c = sid
        · subst hc
          have hnm : c ∉ (vacateRoom c room).users := by
            simpa using
              occ_zero_contains_false _ c (occ_vacateRoom_self c room)
          rw [vacate_sum_self, occ_vacateRoom_self,
            occ_setAdd_self _ _ hnm, occ_vacateRoom_self] at hsum
          omega
        · rw [vacate_sum_ne sid c _ hc, occ_setAdd_ne _ _ _ hc,
            occ_vacateRoom_ne sid c room hc] at hsum
          have hr : roomOcc s c ≤ 1 := h
          unfold roomOcc at hr
          omega
  | voiceLeave sid roomId =>
    show roomOcc (voiceLeave s sid roomId).1 c ≤ 1
    cases hm : mapGet s.voiceRooms roomId with
    | none => simpa [voiceLeave, hm, roomOcc] using h
    | some room =>
      by_cases hmem : sid ∈ room.users
      · have hrooms : (voiceLeave s sid roomId).1.voiceRooms =
            mapSet s.voiceRooms roomId
              (Room.mk room.name (setDelete room.users sid)
                room.limit room.createdBy) := by
          simp [voiceLeave, hm, hmem]
        unfold roomOcc
        rw [hrooms]
        have hsum := mapSet_occ_sum c s.voiceRooms roomId
          (Room.mk room.name (setDelete room.users sid)
            room.limit room.createdBy) room hm
        have husers : (Room.mk room.name (setDelete room.users sid)
            room.limit room.createdBy).users =
            setDelete room.users sid := rfl
        rw [husers] at hsum
        have hle := occ_setDelete_le room.users sid c
        have hr : roomOcc s c ≤ 1 := h
        unfold roomOcc at hr
        omega
      · simpa [voiceLeave, hm, hmem, roomOcc] using h
  | voiceCreateRoom sid name limit freshId =>
    show roomOcc (voiceCreateRoom s sid name limit freshId).1 c ≤ 1
    have hrooms : (voiceCreateRoom s sid name limit freshId).1.voiceRooms =
        mapSet s.voiceRooms freshId (Room.mk name [] limit (some sid)) := rfl
    unfold roomOcc
    rw [hrooms]
    cases hm : mapGet s.voiceRooms freshId with
    | none =>
      rw [mapSet_of_mapGet_none _ _ _ hm]
      have hr : roomOcc s c ≤ 1 := h
      unfold roomOcc at hr
      simpa [List.sum_append, occ] using hr
    | some w =>
      have hsum := mapSet_occ_sum c s.voiceRooms freshId
        (Room.mk name [] limit (some sid)) w hm
      have husers : occ c (Room.mk name [] limit (some sid)).users = 0 := rfl
      rw [husers] at hsum
      have hr : roomOcc s c ≤ 1 := h
      unfold roomOcc at hr
      omega
  | disconnect sid =>
    show roomOcc (disconnect s sid).1 c ≤ 1
    have hrooms : (disconnect s sid).1.voiceRooms =
        vacateRooms sid s.voiceRooms := rfl
    unfold roomOcc
    rw [hrooms]
    by_cases hc : c = sid
    · subst hc
      rw [vacate_sum_self]
      omega
    · rw [vacate_sum_ne sid c s.voiceRooms hc]
      have hr : roomOcc s c ≤ 1 := h
      unfold roomOcc at hr
      exact hr

theorem runOps_roomOcc_le (ops : List Op) (s : ServerState) (c : String)
    (h : roomOcc s c ≤ 1) : roomOcc (runOps s ops) c ≤ 1 := by
  induction ops generalizing s with
  | nil => exact h
  | cons op rest ih => exact ih _ (step_roomOcc_le s op c h)

/-! ### Shared helper lemmas for the object model -/

theorem objGet_foldl_init_irrel (ud : Obj) (k : String)
    (h : objHas ud k = true) (i₁ i₂ : Val) :
    ud.foldl (fun acc p => if p.1 == k then p.2 else acc) i₁ =
      ud.foldl (fun acc p => if p.1 == k then p.2 else acc) i₂ := by
  induction ud generalizing i₁ i₂ with
  | nil => simp [objHas] at h
  | cons p rest ih =>
    obtain ⟨k', v⟩ := p
    by_cases hk : (k' == k) = true
    · simp only [List.foldl_cons]
      rw [if_pos hk, if_pos hk]
    · have hk' : (k' == k) = false := by simpa using hk
      have hrest : objHas rest k = true := by
        simpa [objHas, hk'] using h
      simp only [List.foldl_cons, hk', Bool.false_eq_true, if_false]
      exact ih hrest i₁ i₂

theorem objGet_append_of_has (base ud : Obj) (k : String)
    (h : objHas ud k = true) : objGet (base ++ ud) k = objGet ud k := by
  unfold objGet
  rw [List.foldl_append]
  exact objGet_foldl_init_irrel ud k h _ _

/-! ### Concrete scenario states -/

/-- Two sockets connected, nobody logged in, a stream `st1` broadcast by
`A`. -/
def sC5 : ServerState :=
  runOps initState
    [Op.connect "A", Op.connect "B",
     Op.streamStart "A" vUndef vUndef "st1" "t0"]

/-- `A` and `B` connected and in `general`; `A` has created the ad-hoc
room `X` (generated id `X`) but not yet joined it. -/
def sC2 : ServerState :=
  runOps initState
    [Op.connect "A", Op.connect "B",
     Op.login "A" [("name", vStr "Alice")], Op.login "B" [("name", vStr "Bob")],
     Op.voiceJoin "A" "general", Op.voiceJoin "B" "general",
     Op.voiceCreateRoom "A" "X" 10 "X"]

/-- Two sockets connected, nobody logged in. -/
def sC8 : ServerState := runOps initState [Op.connect "A", Op.connect "B"]

/-- A state in which the disconnect reconciler has already run for `A`. -/
def sC3 : ServerState :=
  runOps initState
    [Op.connect "A", Op.login "A" [("name", vStr "Alice")],
     Op.voiceJoin "A" "general", Op.disconnect "A"]

/-! ### Claim theorems -/

/-- C1: after every sequence of operations starting from the boot state,
every connection occurs at most once across all voice-room membership
sets — a successful join vacates every other room before adding. -/
theorem voice_membership_exclusive (ops : List Op) (c : String) :
    roomOcc (runOps initState ops) c ≤ 1 :=
  runOps_roomOcc_le ops initState c (by simp [roomOcc, initState, occ])

/-- C5: a stop request by anyone other than the broadcaster is a
complete no-op — the state (stream registry included) is unchanged and
no event at all is emitted. -/
theorem stream_stop_nonbroadcaster_noop (s : ServerState)
    (streamId rid : String) (st : StreamData)
    (hm : mapGet s.streams streamId = some st) (hne : st.userId ≠ rid) :
    step s (Op.streamStop rid streamId) = (s, []) := by
  show streamStop s rid streamId = (s, [])
  unfold streamStop
  rw [hm]
  have hb : (st.userId == rid) = false := by
    simpa [beq_eq_false_iff_ne] using hne
  simp [hb]

/-- Witness for C5 at a concrete state: `B` tries to stop `A`'s
stream `st1` and nothing happens. -/
theorem stream_stop_nonbroadcaster_noop_witness :
    step sC5 (Op.streamStop "B" "st1") = (sC5, []) :=
  stream_stop_nonbroadcaster_noop sC5 "st1" "B"
    (StreamData.mk "st1" "A" vUndef vUndef vUndef vUndef [] "t0")
    (by rfl) (by decide)

/-- C7 (amended): `voice:create-room` stores an empty room with the
given name, limit and creator under the generated id — overwriting any
existing room with that id, there is no collision check — and broadcasts
a room-created notification with id, name, limit, zero count and the
creator display name. -/
theorem create_room_stores_and_broadcasts (s : ServerState)
    (sid name : String) (limit : Int) (fid : String) :
    step s (Op.voiceCreateRoom sid name limit fid) =
      ({ s with voiceRooms :=
          mapSet s.voiceRooms fid (Room.mk name [] limit (some sid)) },
       [Event.mk Target.all "voice:room-created"
         (vObj [("id", vStr fid), ("name", vStr name), ("limit", vNum limit),
                ("userCount", vNum 0),
                ("createdBy", optChain (mapGet s.users sid) "name")])]) := rfl

/-- Counterexample for C7 as stated: when the generated id collides with
the pre-provisioned room `general` (which holds `A` and `B` in `sC2`),
the create silently replaces the room, erasing its membership — the id
is not guaranteed fresh. -/
theorem create_room_id_collision_overwrites :
    mapGet sC2.voiceRooms "general" =
      some (Room.mk "Sala Geral" ["A", "B"] 0 none) ∧
    mapGet (step sC2 (Op.voiceCreateRoom "B" "Y" 5 "general")).1.voiceRooms
        "general" = some (Room.mk "Y" [] 5 (some "B")) :=
  ⟨rfl, rfl⟩

/-- C8 (amended): the login handler emits the online notification as a
broadcast to ALL connections — the caller included — and delivers the
user snapshot to the caller alone. -/
theorem login_event_targets (s : ServerState) (sid : String) (ud : Obj) :
    (step s (Op.login sid ud)).2 =
      [Event.mk Target.all "user:online"
        (vObj [("id", vStr sid), ("name", objGet ud "name"),
               ("status", vStr "online")]),
       Event.mk (Target.caller sid) "users:list"
        (vArr ((mapSet s.users sid (loginRecord sid ud)).map
          (fun p => vObj p.2)))] ∧
    recipients (step s (Op.login sid ud)).1 Target.all = s.connected ∧
    recipients (step s (Op.login sid ud)).1 (Target.caller sid) =
      (if s.connected.contains sid then [sid] else []) :=
  ⟨rfl, rfl, rfl⟩

/-- Counterexample for C8 as stated: at `sC8`, `A` logs in and the
online notification resolves to recipients `[A, B]` — the caller `A` is
among them, not excluded. -/
theorem login_online_includes_caller :
    (step sC8 (Op.login "A" [("name", vStr "Alice")])).2.head? =
      some (Event.mk Target.all "user:online"
        (vObj [("id", vStr "A"), ("name", vStr "Alice"),
               ("status", vStr "online")])) ∧
    recipients (step sC8 (Op.login "A" [("name", vStr "Alice")])).1
      Target.all = ["A", "B"] ∧
    "A" ∈ recipients (step sC8 (Op.login "A" [("name", vStr "Alice")])).1
      Target.all :=
  ⟨rfl, rfl, by decide⟩

/-- C9: the conversation-key canonicalization is not injective on
unordered pairs — the pairs (`a-b`, `c`) and (`a`, `b-c`) share the key
`a-b-c`, and a message sent between the first pair shows up in the
history of the second. -/
theorem convKey_collision :
    convKey "a-b" "c" = convKey "a" "b-c" ∧
    convKey "a-b" "c" = "a-b-c" ∧
    dmHistoryMsgs
        (step initState
          (Op.dmSend "a-b" "c" (vStr "oi") vUndef vUndef "m1" "t1")).1
        "a" "b-c" =
      [dmMessage initState "a-b" "c" (vStr "oi") vUndef vUndef "m1" "t1"] :=
  ⟨rfl, rfl, rfl⟩

/-- Filtering away everything a `filterMap` can produce yields the
empty list. -/
theorem filter_filterMap_nil {α β} (f : α → Option β) (p : β → Bool)
    (l : List α) (h : ∀ a b, f a = some b → p b = false) :
    (l.filterMap f).filter p = [] := by
  induction l with
  | nil => rfl
  | cons a rest ih =>
    cases hfa : f a with
    | none =>
      rw [List.filterMap_cons_none hfa]
      exact ih
    | some b =>
      rw [List.filterMap_cons_some hfa, List.filter_cons, h a b hfa]
      simpa using ih

/-- Every event of the vacate loop is a `voice:user-left`; none is an
occupancy notification. -/
theorem vacateEvents_no_roomUpdated (sid : String) (nm : Val)
    (rooms : List (String × Room)) :
    (vacateEvents sid nm rooms).filter
      (fun e => e.name == "voice:room-updated") = [] := by
  apply filter_filterMap_nil
  intro a b hab
  by_cases hc : (a.2.users.contains sid) = true
  · rw [if_pos hc] at hab
    cases hab
    rfl
  · rw [if_neg hc] at hab
    cases hab

/-- The full event list of a successful `voice:join`: the user-left
events of the vacate loop, then user-joined, the joined confirmation,
and a single occupancy notification for the target room. -/
theorem voiceJoin_success_events (s : ServerState) (sid roomId : String)
    (room : Room) (hm : mapGet s.voiceRooms roomId = some room)
    (hfull : ¬(room.limit > 0 ∧ (room.users.length : Int) ≥ room.limit)) :
    (voiceJoin s sid roomId).2 =
      vacateEvents sid (optChain (mapGet s.users sid) "name") s.voiceRooms ++
      [Event.mk (Target.toRoomExceptCaller ("voice:" ++ roomId) sid)
         "voice:user-joined"
         (vObj [("roomId", vStr roomId), ("userId", vStr sid),
                ("userName", optChain (mapGet s.users sid) "name"),
                ("userAvatar", optChain (mapGet s.users sid) "avatar")]),
       Event.mk (Target.caller sid) "voice:joined"
         (vObj [("roomId", vStr roomId),
                ("participants", vArr
                  ((setAdd (vacateRoom sid room).users sid).map (fun i =>
                    vObj [("id", vStr i),
                          ("name", optChain (mapGet s.users i) "name"),
                          ("avatar", optChain (mapGet s.users i) "avatar")])))]),
       Event.mk Target.all "voice:room-updated"
         (vObj [("roomId", vStr roomId),
                ("userCount",
                 vNum (setAdd (vacateRoom sid room).users sid).length)])] := by
  simp [voiceJoin, hm, hfull]

/-- C2 (amended): a successful join emits exactly one occupancy
(room-updated) notification, and it is for the joined room with its new
member count; vacated rooms get a user-left but no occupancy
notification. -/
theorem join_occupancy_only_joined_room (s : ServerState)
    (sid roomId : String) (room : Room)
    (hm : mapGet s.voiceRooms roomId = some room)
    (hfull : ¬(room.limit > 0 ∧ (room.users.length : Int) ≥ room.limit)) :
    (step s (Op.voiceJoin sid roomId)).2.filter
        (fun e => e.name == "voice:room-updated") =
      [Event.mk Target.all "voice:room-updated"
        (vObj [("roomId", vStr roomId),
               ("userCount",
                vNum (setAdd (vacateRoom sid room).users sid).length)])] := by
  show (voiceJoin s sid roomId).2.filter
      (fun e => e.name == "voice:room-updated") = _
  rw [voiceJoin_success_events s sid roomId room hm hfull,
    List.filter_append, vacateEvents_no_roomUpdated]
  have c1 : (("voice:user-joined" : String) == "voice:room-updated") =
      false := by decide
  have c2 : (("voice:joined" : String) == "voice:room-updated") = false := by
    decide
  have c3 : (("voice:room-updated" : String) == "voice:room-updated") =
      true := by decide
  simp [List.filter_cons, c1, c2, c3]

/-- Witness for C2 (amended) at the spec scenario: `A` (in `general`)
joins the ad-hoc room `X`. -/
theorem join_occupancy_only_joined_room_witness :
    (step sC2 (Op.voiceJoin "A" "X")).2.filter
        (fun e => e.name == "voice:room-updated") =
      [Event.mk Target.all "voice:room-updated"
        (vObj [("roomId", vStr "X"),
               ("userCount",
                vNum (setAdd (vacateRoom "A"
                  (Room.mk "X" [] 10 (some "A"))).users "A").length)])] :=
  join_occupancy_only_joined_room sC2 "A" "X" (Room.mk "X" [] 10 (some "A"))
    rfl (by decide)

/-- Counterexample for C2 as stated: in the spec scenario (`A` in
`general` joins `X`), the join emits one user-left and one occupancy
notification, and no occupancy notification with the vacated room id
`general` is among the events. -/
theorem join_vacated_room_gets_no_occupancy_event :
    (mapGet sC2.voiceRooms "general").map (fun r => r.users) =
      some ["A", "B"] ∧
    (step sC2 (Op.voiceJoin "A" "X")).2.map (fun e => e.name) =
      ["voice:user-left", "voice:user-joined", "voice:joined",
       "voice:room-updated"] ∧
    (step sC2 (Op.voiceJoin "A" "X")).2.filter
        (fun e => e.name == "voice:room-updated" &&
          (match e.payload with
           | vObj (("roomId", vStr r) :: _) => r == "general"
           | _ => false)) = [] :=
  ⟨rfl, rfl, rfl⟩

theorem vacateRoom_not_contains (sid : String) (r : Room) :
    (vacateRoom sid r).users.contains sid = false := by
  unfold vacateRoom
  by_cases h : (r.users.contains sid) = true
  · rw [if_pos h]
    show (setDelete r.users sid).contains sid = false
    simpa using not_mem_setDelete r.users sid
  · rw [if_neg h]
    simpa using h

theorem vacateRoom_idem (sid : String) (r : Room) :
    vacateRoom sid (vacateRoom sid r) = vacateRoom sid r := by
  have h := vacateRoom_not_contains sid r
  conv_lhs => rw [vacateRoom]
  rw [h]
  simp

theorem vacateRooms_idem (sid : String) (rooms : List (String × Room)) :
    vacateRooms sid (vacateRooms sid rooms) = vacateRooms sid rooms := by
  induction rooms with
  | nil => rfl
  | cons p rest ih =>
    simp only [vacateRooms, List.map_cons] at ih ⊢
    rw [vacateRoom_idem]
    exact congrArg (List.cons _) ih

theorem disconnectRoomEvents_vacated_nil (sid : String) (nm : Val)
    (rooms : List (String × Room)) :
    disconnectRoomEvents sid nm (vacateRooms sid rooms) = [] := by
  induction rooms with
  | nil => rfl
  | cons p rest ih =>
    have hc := vacateRoom_not_contains sid p.2
    simp only [vacateRooms, List.map_cons, disconnectRoomEvents,
      List.foldr_cons, hc, Bool.false_eq_true, if_false] at ih ⊢
    exact ih

theorem disconnectStreams_cons_broadcaster (sid : String)
    (p : String × StreamData) (rest : List (String × StreamData))
    (h : (p.2.userId == sid) = true) :
    disconnectStreams sid (p :: rest) = disconnectStreams sid rest := by
  unfold disconnectStreams
  exact List.filterMap_cons_none (by rw [if_pos h])

theorem disconnectStreams_cons_other (sid : String)
    (p : String × StreamData) (rest : List (String × StreamData))
    (h : (p.2.userId == sid) = false) :
    disconnectStreams sid (p :: rest) =
      (p.1, { p.2 with viewers := setDelete p.2.viewers sid }) ::
        disconnectStreams sid rest := by
  unfold disconnectStreams
  exact List.filterMap_cons_some (by rw [h]; rfl)

theorem disconnectStreams_idem (sid : String)
    (streams : List (String × StreamData)) :
    disconnectStreams sid (disconnectStreams sid streams) =
      disconnectStreams sid streams := by
  induction streams with
  | nil => rfl
  | cons p rest ih =>
    by_cases h : (p.2.userId == sid) = true
    · rw [disconnectStreams_cons_broadcaster sid p rest h]
      exact ih
    · have h' : (p.2.userId == sid) = false := by simpa using h
      rw [disconnectStreams_cons_other sid p rest h']
      have hq : ((((p.1,
          { p.2 with viewers := setDelete p.2.viewers sid }) :
            String × StreamData)).2.userId == sid) = false := h'
      rw [disconnectStreams_cons_other sid _ _ hq]
      simp only [setDelete_idem]
      exact congrArg (List.cons _) ih

theorem disconnectStreamEvents_cleaned_nil (sid : String)
    (streams : List (String × StreamData)) :
    disconnectStreamEvents sid (disconnectStreams sid streams) = [] := by
  induction streams with
  | nil => rfl
  | cons p rest ih =>
    by_cases h : (p.2.userId == sid) = true
    · rw [disconnectStreams_cons_broadcaster sid p rest h]
      exact ih
    · have h' : (p.2.userId == sid) = false := by simpa using h
      rw [disconnectStreams_cons_other sid p rest h']
      have hq : ((((p.1,
          { p.2 with viewers := setDelete p.2.viewers sid }) :
            String × StreamData)).2.userId == sid) = false := h'
      unfold disconnectStreamEvents
      rw [List.filterMap_cons_none (by rw [hq]; rfl)]
      exact ih

theorem sio_cleanup_idem (sid : String) (m : List (String × List String)) :
    ((m.map (fun p => (p.1, setDelete p.2 sid))).map
      (fun p => (p.1, setDelete p.2 sid))) =
      m.map (fun p => (p.1, setDelete p.2 sid)) := by
  induction m with
  | nil => rfl
  | cons p rest ih =>
    simp only [List.map_cons, setDelete_idem] at ih ⊢
    exact congrArg (List.cons _) ih

/-- C3 (amended): running the disconnect reconciler a second time for
the same id changes no state, performs no room or stream cleanup, and
emits only the one unconditional offline notification. -/
theorem disconnect_idempotent_second_run (s : ServerState) (sid : String) :
    step (step s (Op.disconnect sid)).1 (Op.disconnect sid) =
      ((step s (Op.disconnect sid)).1,
       [Event.mk Target.all "user:offline" (vObj [("id", vStr sid)])]) := by
  show disconnect (disconnect s sid).1 sid = ((disconnect s sid).1, _)
  have h1 : (disconnect s sid).1 = ServerState.mk
      (setDelete s.connected sid) (mapDelete s.users sid)
      (vacateRooms sid s.voiceRooms) s.conversations
      (disconnectStreams sid s.streams)
      (s.sioRooms.map (fun p => (p.1, setDelete p.2 sid))) := rfl
  rw [h1]
  have h2 : disconnect (ServerState.mk (setDelete s.connected sid)
      (mapDelete s.users sid) (vacateRooms sid s.voiceRooms) s.conversations
      (disconnectStreams sid s.streams)
      (s.sioRooms.map (fun p => (p.1, setDelete p.2 sid)))) sid =
    (ServerState.mk (setDelete (setDelete s.connected sid) sid)
      (mapDelete (mapDelete s.users sid) sid)
      (vacateRooms sid (vacateRooms sid s.voiceRooms)) s.conversations
      (disconnectStreams sid (disconnectStreams sid s.streams))
      ((s.sioRooms.map (fun p => (p.1, setDelete p.2 sid))).map
        (fun p => (p.1, setDelete p.2 sid))),
     disconnectRoomEvents sid
        (optChain (mapGet (mapDelete s.users sid) sid) "name")
        (vacateRooms sid s.voiceRooms) ++
      disconnectStreamEvents sid (disconnectStreams sid s.streams) ++
      [Event.mk Target.all "user:offline" (vObj [("id", vStr sid)])]) := rfl
  rw [h2, setDelete_idem, mapDelete_idem, vacateRooms_idem,
    disconnectStreams_idem, sio_cleanup_idem,
    disconnectRoomEvents_vacated_nil, disconnectStreamEvents_cleaned_nil]
  simp only [List.nil_append]

/-- Counterexample for C3 as stated: at `sC3` (where the reconciler has
already run for `A`), a second disconnect for `A` still emits an event —
the unconditional offline broadcast — so the second run is not free of
emissions. -/
theorem disconnect_second_run_emits_event :
    (step sC3 (Op.disconnect "A")).2.map (fun e => e.name) =
      ["user:offline"] ∧
    (step sC3 (Op.disconnect "A")).2.length = 1 :=
  ⟨rfl, rfl⟩

/-- One `Append` call between a fixed pair: direction, body, kind,
audio payload and the generated id and timestamp. -/
structure SendCall where
  fromFirst : Bool
  text : Val
  ty : Val
  audioData : Val
  msgId : String
  ts : String

/-- The `dm:send` operation a call denotes, between `a` and `b`. -/
def sendOp (a b : String) (c : SendCall) : Op :=
  if c.fromFirst then Op.dmSend a b c.text c.ty c.audioData c.msgId c.ts
  else Op.dmSend b a c.text c.ty c.audioData c.msgId c.ts

/-- The message the handler stores for a call, resolved against the
sender record in `s`. -/
def expectedMsg (s : ServerState) (a b : String) (c : SendCall) : Msg :=
  if c.fromFirst then dmMessage s a b c.text c.ty c.audioData c.msgId c.ts
  else dmMessage s b a c.text c.ty c.audioData c.msgId c.ts

theorem dmHistoryMsgs_comm (s : ServerState) (x y : String) :
    dmHistoryMsgs s x y = dmHistoryMsgs s y x := by
  unfold dmHistoryMsgs
  rw [convKey_comm]

theorem expectedMsg_congr_users (s s' : ServerState) (a b : String)
    (c : SendCall) (h : s'.users = s.users) :
    expectedMsg s' a b c = expectedMsg s a b c := by
  unfold expectedMsg dmMessage
  rw [h]

theorem sendOp_users (s : ServerState) (a b : String) (c : SendCall) :
    (step s (sendOp a b c)).1.users = s.users := by
  by_cases hcf : c.fromFirst = true <;> simp [sendOp, hcf, step, dmSend]

theorem sendOp_history (s : ServerState) (a b : String) (c : SendCall) :
    dmHistoryMsgs (step s (sendOp a b c)).1 a b =
      dmHistoryMsgs s a b ++ [expectedMsg s a b c] := by
  by_cases hcf : c.fromFirst = true
  · have hop : sendOp a b c =
        Op.dmSend a b c.text c.ty c.audioData c.msgId c.ts := by
      simp [sendOp, hcf]
    have hexp : expectedMsg s a b c =
        dmMessage s a b c.text c.ty c.audioData c.msgId c.ts := by
      simp [expectedMsg, hcf]
    rw [hop, hexp]
    show dmHistoryMsgs (dmSend s a b c.text c.ty c.audioData c.msgId c.ts).1
        a b = _
    unfold dmHistoryMsgs dmSend
    simp [mapGet_mapSet_self]
  · have hcf' : c.fromFirst = false := by simpa using hcf
    have hop : sendOp a b c =
        Op.dmSend b a c.text c.ty c.audioData c.msgId c.ts := by
      simp [sendOp, hcf']
    have hexp : expectedMsg s a b c =
        dmMessage s b a c.text c.ty c.audioData c.msgId c.ts := by
      simp [expectedMsg, hcf']
    rw [hop, hexp]
    show dmHistoryMsgs (dmSend s b a c.text c.ty c.audioData c.msgId c.ts).1
        a b = _
    unfold dmHistoryMsgs dmSend
    rw [convKey_comm a b]
    simp [mapGet_mapSet_self]

theorem runOps_sends (a b : String) (calls : List SendCall) :
    ∀ s : ServerState,
      (runOps s (calls.map (sendOp a b))).users = s.users ∧
      dmHistoryMsgs (runOps s (calls.map (sendOp a b))) a b =
        dmHistoryMsgs s a b ++ calls.map (expectedMsg s a b) := by
  induction calls with
  | nil => intro s; exact ⟨rfl, by simp [runOps]⟩
  | cons c cs ih =>
    intro s
    obtain ⟨ihu, ihh⟩ := ih (step s (sendOp a b c)).1
    have hu := sendOp_users s a b c
    constructor
    · exact ihu.trans hu
    · rw [List.map_cons]
      show dmHistoryMsgs
        (runOps (step s (sendOp a b c)).1 (cs.map (sendOp a b))) a b = _
      rw [ihh, sendOp_history s a b c, List.map_cons,
        List.append_assoc, List.singleton_append,
        List.map_congr_left (l := cs) (fun x _ =>
          expectedMsg_congr_users s ((step s (sendOp a b c)).1) a b x hu)]

/-- C4: starting with no stored conversation for the pair, any sequence
of `Append` (dm:send) calls between `a` and `b` leaves exactly those
messages, in call order, as the history of the pair — and history is
symmetric in its two arguments because the key sorts the ids. -/
theorem dm_history_exact_and_symmetric (s : ServerState) (a b : String)
    (calls : List SendCall)
    (h0 : mapGet s.conversations (convKey a b) = none) :
    dmHistoryMsgs (runOps s (calls.map (sendOp a b))) a b =
      calls.map (expectedMsg s a b) ∧
    ∀ s' : ServerState, ∀ x y : String,
      dmHistoryMsgs s' x y = dmHistoryMsgs s' y x := by
  constructor
  · rw [(runOps_sends a b calls s).2]
    simp [dmHistoryMsgs, h0]
  · intro s' x y
    exact dmHistoryMsgs_comm s' x y

/-- Witness for C4: a single message from `a` to `b` starting from the
boot state. -/
theorem dm_history_exact_and_symmetric_witness :
    mapGet initState.conversations (convKey "a" "b") = none ∧
    dmHistoryMsgs (runOps initState
        ([SendCall.mk true (vStr "hi") vUndef vUndef "m1" "t1"].map
          (sendOp "a" "b"))) "a" "b" =
      [SendCall.mk true (vStr "hi") vUndef vUndef "m1" "t1"].map
        (expectedMsg initState "a" "b") :=
  ⟨rfl, (dm_history_exact_and_symmetric initState "a" "b"
    [SendCall.mk true (vStr "hi") vUndef vUndef "m1" "t1"] rfl).1⟩

theorem voiceJoin_notFound (s : ServerState) (sid rid : String)
    (hm : mapGet s.voiceRooms rid = none) :
    step s (Op.voiceJoin sid rid) =
      (s, [Event.mk (Target.caller sid) "voice:error"
        (vObj [("message", vStr "Sala não encontrada")])]) := by
  show voiceJoin s sid rid = _
  simp [voiceJoin, hm]

theorem voiceJoin_full (s : ServerState) (sid rid : String) (room : Room)
    (hm : mapGet s.voiceRooms rid = some room)
    (hfull : room.limit > 0 ∧ (room.users.length : Int) ≥ room.limit) :
    step s (Op.voiceJoin sid rid) =
      (s, [Event.mk (Target.caller sid) "voice:error"
        (vObj [("message", vStr "Sala cheia")])]) := by
  show voiceJoin s sid rid = _
  simp [voiceJoin, hm, hfull]

theorem voiceJoin_success_len (s : ServerState) (sid rid : String)
    (room : Room) (hm : mapGet s.voiceRooms rid = some room)
    (hfull : ¬(room.limit > 0 ∧ (room.users.length : Int) ≥ room.limit)) :
    (step s (Op.voiceJoin sid rid)).2.length =
      (vacateEvents sid (optChain (mapGet s.users sid) "name")
        s.voiceRooms).length + 3 := by
  show (voiceJoin s sid rid).2.length = _
  rw [voiceJoin_success_events s sid rid room hm hfull]
  simp [List.length_append]

/-- C6: `voice:join` answers with the room-not-found error — leaving the
state untouched and emitting nothing but the error to the caller —
exactly when the room id is unknown, and with the room-full error
exactly when the room exists with a positive capacity already reached. -/
theorem join_error_characterization (s : ServerState) (sid rid : String) :
    ((step s (Op.voiceJoin sid rid) =
        (s, [Event.mk (Target.caller sid) "voice:error"
          (vObj [("message", vStr "Sala não encontrada")])])) ↔
      mapGet s.voiceRooms rid = none) ∧
    ((step s (Op.voiceJoin sid rid) =
        (s, [Event.mk (Target.caller sid) "voice:error"
          (vObj [("message", vStr "Sala cheia")])])) ↔
      ∃ room, mapGet s.voiceRooms rid = some room ∧
        room.limit > 0 ∧ (room.users.length : Int) ≥ room.limit) := by
  constructor
  · constructor
    · intro h
      cases hm : mapGet s.voiceRooms rid with
      | none => rfl
      | some room =>
        exfalso
        by_cases hfull : room.limit > 0 ∧
            (room.users.length : Int) ≥ room.limit
        · rw [voiceJoin_full s sid rid room hm hfull] at h
          simp at h
        · have hlen1 : (step s (Op.voiceJoin sid rid)).2.length = 1 := by
            rw [h]
            rfl
          have hlen3 := voiceJoin_success_len s sid rid room hm hfull
          omega
    · intro hm
      exact voiceJoin_notFound s sid rid hm
  · constructor
    · intro h
      cases hm : mapGet s.voiceRooms rid with
      | none =>
        exfalso
        rw [voiceJoin_notFound s sid rid hm] at h
        simp at h
      | some room =>
        by_cases hfull : room.limit > 0 ∧
            (room.users.length : Int) ≥ room.limit
        · exact ⟨room, rfl, hfull⟩
        · exfalso
          have hlen1 : (step s (Op.voiceJoin sid rid)).2.length = 1 := by
            rw [h]
            rfl
          have hlen3 := voiceJoin_success_len s sid rid room hm hfull
          omega
    · rintro ⟨room, hm, hfull⟩
      exact voiceJoin_full s sid rid room hm hfull

/-- C10: the login payload is spread after the defaults, so every key
present in the payload — name with a falsy value, id, status, anything —
overrides the default stored for that field. -/
theorem login_spread_overrides (sid : String) (ud : Obj) :
    (objHas ud "name" = true →
      objGet (loginRecord sid ud) "name" = objGet ud "name") ∧
    (∀ k, objHas ud k = true →
      objGet (loginRecord sid ud) k = objGet ud k) := by
  constructor
  · intro h
    exact objGet_append_of_has _ ud "name" h
  · intro k h
    exact objGet_append_of_has _ ud k h

/-- Witness for C10: a payload with an empty-string (falsy) name and an
overriding status — the stored record keeps the payload values, not the
defaults. -/
theorem login_spread_overrides_witness :
    objHas [("name", vStr ""), ("status", vStr "busy")] "name" = true ∧
    objGet (loginRecord "S" [("name", vStr ""), ("status", vStr "busy")])
      "name" = vStr "" ∧
    objGet (loginRecord "S" [("name", vStr ""), ("status", vStr "busy")])
      "status" = vStr "busy" :=
  ⟨rfl,
   ((login_spread_overrides "S"
     [("name", vStr ""), ("status", vStr "busy")]).1 rfl).trans rfl,
   ((login_spread_overrides "S"
     [("name", vStr ""), ("status", vStr "busy")]).2 "status" rfl).trans rfl⟩

end Abyss
